import Mathlib

/-!
Shallow embedding of the record-store core of `src/main.py` (classes `Book`
and `Library`).  Pure data is translated directly; the stateful parts
(the in-memory book list and the backing JSON file) are modelled by explicit
state passing on a `LibState` record.  Python's dynamic JSON values are
modelled by the inductive `JVal`; the backing file is `FileState` (absent,
present-but-unparseable, or a parsed JSON value — `json.dump`/`json.load`
are semantically inverse on the values the program writes, so the file is
kept at the JSON-value level).  `str(uuid.uuid4())` is nondeterministic, so
the generated id is passed to `add_book` as an explicit oracle argument;
whether a file write succeeds is likewise an explicit `ioOk` argument to
the operations that call `save_books`.
-/

namespace LibraryStore

/-- A JSON value, as produced by Python's `json` module for this program:
strings, integers, arrays and objects (an object is a key/value list). -/
inductive JVal where
  | jstr (s : String)
  | jint (n : Int)
  | jarr (items : List JVal)
  | jobj (fields : List (String × JVal))

/-- Embedding of `class Book` (src/main.py lines 15-33): id, title, author,
year, status.  Fields carry the types the program actually stores. -/
structure Book where
  id : String
  title : String
  author : String
  year : Int
  status : String
deriving DecidableEq, Repr

/-- Embedding of `Book.to_dict` (src/main.py lines 35-47): the serialized
dictionary with the five keys in source order. -/
def Book.to_dict (b : Book) : JVal :=
  .jobj [("id", .jstr b.id), ("title", .jstr b.title), ("author", .jstr b.author),
         ("year", .jint b.year), ("status", .jstr b.status)]

/-- Embedding of `Book.from_dict` (src/main.py lines 49-60):
`Book(data['id'], data['title'], data['author'], data['year'], data['status'])`.
A missing key raises `KeyError` in Python (uncaught by `load_books`), and a
non-object raises `TypeError`; both failure modes are `none` here, which
`load_books` turns into an uncaught-exception outcome.  The typed embedding
additionally requires each value to carry the field's type. -/
def Book.from_dict (d : JVal) : Option Book :=
  match d with
  | .jobj fields =>
    match fields.lookup "id", fields.lookup "title", fields.lookup "author",
          fields.lookup "year", fields.lookup "status" with
    | some (.jstr i), some (.jstr t), some (.jstr a), some (.jint y), some (.jstr s) =>
      some ⟨i, t, a, y, s⟩
    | _, _, _, _, _ => none
  | _ => none

/-- The backing file: absent, existing but not valid JSON (so `json.load`
raises `JSONDecodeError`), or holding a parsed JSON value. -/
inductive FileState where
  | absent
  | corrupt
  | json (v : JVal)

/-- The state of a `Library` instance: the in-memory list `self.books`
plus the backing file the instance's `self.filename` points at. -/
structure LibState where
  books : List Book
  file : FileState

/-- How a store operation returns to its caller.  `ok` is a normal Python
return (the source's methods return `None` and report via print/log);
`notFound` and `invalidStatus` are the printed-and-logged rejection paths;
`crash` is an uncaught exception propagating out of the method.
`corruptData` and `persistenceError` are the error signals the spec names;
they are listed so that theorems can state whether the code produces them. -/
inductive StoreSignal where
  | ok
  | notFound
  | invalidStatus
  | corruptData
  | persistenceError
  | crash
deriving DecidableEq, Repr

/-- JSON serialization of the whole book list, as written by `save_books`:
`[book.to_dict() for book in self.books]`. -/
def encodeBooks (books : List Book) : JVal :=
  .jarr (books.map Book.to_dict)

/-- Elementwise deserialization of a JSON array's items, as the list
comprehension `[Book.from_dict(book) for book in data]` performs it:
the whole list is produced only if every item deserializes. -/
def decodeBookList : List JVal → Option (List Book)
  | [] => some []
  | d :: ds =>
    match Book.from_dict d, decodeBookList ds with
    | some b, some bs => some (b :: bs)
    | _, _ => none

/-- JSON deserialization as performed by `load_books`.  `none` stands for
an uncaught exception while building the list (bad shape), or for a
top-level value whose iteration feeds `from_dict` non-dictionaries. -/
def decodeBooks : JVal → Option (List Book)
  | .jarr items => decodeBookList items
  | _ => none

/-- Embedding of `Library.load_books` (src/main.py lines 76-85).
If the file does not exist, nothing happens (books stay as they are; on
`__init__` they are `[]`).  If `json.load` raises `JSONDecodeError`, the
`except` clause logs the error and the method returns normally with
`self.books` unchanged.  If parsing succeeds, `self.books` is replaced by
the decoded list; a shape error there (`KeyError`/`TypeError` in
`from_dict`) is not in the `except` clause, so it escapes as `crash`
before `self.books` is reassigned. -/
def load_books (lib : LibState) : LibState × StoreSignal :=
  match lib.file with
  | .absent => (lib, .ok)
  | .corrupt => (lib, .ok)
  | .json v =>
    match decodeBooks v with
    | some bs => ({ lib with books := bs }, .ok)
    | none => (lib, .crash)

/-- Embedding of `Library.save_books` (src/main.py lines 87-95).
`ioOk = true`: the file is overwritten with the JSON serialization of the
full in-memory list.  `ioOk = false`: the write raises `IOError`, which the
`except` clause catches and logs — the method still returns normally, so the
signal is `ok` on both paths.  (The content of a partially written file is
not modelled; a failed write leaves the file in its prior state here.) -/
def save_books (lib : LibState) (ioOk : Bool) : LibState × StoreSignal :=
  if ioOk then ({ lib with file := .json (encodeBooks lib.books) }, .ok)
  else (lib, .ok)

/-- The default status string `'в наличии'` used by `add_book`
(src/main.py line 106); the spec's name for this enumerated value is
`available`. -/
def statusAvailable : String := "в наличии"

/-- The status string `'выдана'`; the spec's name for this enumerated
value is `checked_out`. -/
def statusCheckedOut : String := "выдана"

/-- The list `['в наличии', 'выдана']` that `change_status` validates
against (src/main.py line 188): the two enumerated status values. -/
def validStatuses : List String := [statusAvailable, statusCheckedOut]

/-- Embedding of `Library.add_book` (src/main.py lines 97-110).  `book_id`
is the value of `str(uuid.uuid4())`, passed as an oracle argument.  The new
book is appended with default status `'в наличии'` and `save_books` runs.
The Python method is declared `-> None` and returns `None` — it only prints
the generated id — so the returned value is modelled as `Option Book`
and is always `none`. -/
def add_book (lib : LibState) (book_id title author : String) (year : Int)
    (ioOk : Bool) : LibState × Option Book :=
  let new_book : Book := ⟨book_id, title, author, year, statusAvailable⟩
  let lib' : LibState := { lib with books := lib.books ++ [new_book] }
  (((save_books lib' ioOk)).1, none)

/-- Embedding of one iteration of the loop body of `Library.delete_book`
(src/main.py lines 112-129), for a given id: the `next(...)` lookup finds
the first book whose id matches; if found, `self.books.remove(book)` drops
exactly that element (first match) and `save_books` runs; otherwise the
method prints not-found and re-prompts, leaving the state untouched —
`notFound` stands for that rejection path.  (The surrounding
input-prompt loop and its `'выход'` quit sentinel belong to the
interaction shell, which the spec scopes out of the store.) -/
def delete_book_step (lib : LibState) (book_id : String) (ioOk : Bool) :
    LibState × StoreSignal :=
  match lib.books.find? (fun b => b.id == book_id) with
  | some _ =>
    let lib' : LibState := { lib with books := lib.books.eraseP (fun b => b.id == book_id) }
    ((save_books lib' ioOk).1, .ok)
  | none => (lib, .notFound)

/-- Python's `str.lower()` per character, on the character ranges this
program uses: basic latin `A`-`Z` and the Cyrillic letters `А`-`Я`
(U+0410-U+042F, lowered by adding 32) and `Ё` (U+0401 → U+0451), the
alphabet of the program's status strings.  Other characters are fixed. -/
def pyToLower (c : Char) : Char :=
  if 65 ≤ c.toNat ∧ c.toNat ≤ 90 then Char.ofNat (c.toNat + 32)
  else if 0x410 ≤ c.toNat ∧ c.toNat ≤ 0x42F then Char.ofNat (c.toNat + 32)
  else if c.toNat = 0x401 then Char.ofNat 0x451
  else c

/-- Python's `str.lower()` on a whole string. -/
def pyLower (s : String) : String :=
  String.mk (s.toList.map pyToLower)

/-- Python's substring test `needle in hay` on strings: contiguous
infix containment of the character sequences. -/
def strIn (needle hay : String) : Bool :=
  decide (needle.toList <:+: hay.toList)

/-- Embedding of `Library.find_by_title` (src/main.py lines 131-141):
`[book for book in self.books if title.lower() in book.title.lower()]`. -/
def find_by_title (lib : LibState) (title : String) : List Book :=
  lib.books.filter (fun book => strIn (pyLower title) (pyLower book.title))

/-- Embedding of `Library.find_by_author` (src/main.py lines 143-153). -/
def find_by_author (lib : LibState) (author : String) : List Book :=
  lib.books.filter (fun book => strIn (pyLower author) (pyLower book.author))

/-- Embedding of `Library.find_by_year` (src/main.py lines 155-164):
`[book for book in self.books if book.year == year]`. -/
def find_by_year (lib : LibState) (year : Int) : List Book :=
  lib.books.filter (fun book => book.year == year)

/-- `book.status = new_status` applied to the first book whose id matches,
mirroring that `next(...)` returns the first match and the assignment
mutates only that object. -/
def setStatusFirst (book_id new_status : String) : List Book → List Book
  | [] => []
  | b :: bs =>
    if b.id == book_id then { b with status := new_status } :: bs
    else b :: setStatusFirst book_id new_status bs

/-- Embedding of `Library.change_status` (src/main.py lines 177-203).
The supplied status is lowercased first; the first book with a matching id
is looked up; then the lowered status is validated against
`['в наличии', 'выдана']` (rejecting with `invalidStatus` before the
existence of the id is consulted); then a missing id rejects with
`notFound`; otherwise the status is assigned in place and `save_books`
runs. -/
def change_status (lib : LibState) (book_id new_status : String) (ioOk : Bool) :
    LibState × StoreSignal :=
  let ns := pyLower new_status
  let book := lib.books.find? (fun b => b.id == book_id)
  if ns ∉ validStatuses then (lib, .invalidStatus)
  else
    match book with
    | none => (lib, .notFound)
    | some _ =>
      ((save_books { lib with books := setStatusFirst book_id ns lib.books } ioOk).1, .ok)

/-- The state of a freshly constructed `Library` whose backing file does
not yet exist: `__init__` sets `self.books = []` and `load_books` on an
absent file leaves it empty. -/
def initLib : LibState := ⟨[], .absent⟩

/-- A concrete one-book store used by the concrete instantiations below. -/
def sampleLib : LibState := ⟨[⟨"b1", "Dune", "Herbert", 1965, statusAvailable⟩], .absent⟩

/-- Every book in the list carries one of the two enumerated statuses. -/
def BooksOk (bs : List Book) : Prop := ∀ b ∈ bs, b.status ∈ validStatuses

/-- The status invariant over a whole store state: the in-memory books are
status-legal, and the backing file is either still absent or holds the
serialization of a status-legal book list. -/
def StoreInv (lib : LibState) : Prop :=
  BooksOk lib.books ∧
  (lib.file = .absent ∨ ∃ bs, lib.file = .json (encodeBooks bs) ∧ BooksOk bs)

/-- Store states reachable from a fresh empty library by `add_book`
calls alone (spec §8: "for all sequences of Add calls"). -/
inductive AddReachable : LibState → Prop where
  | init : AddReachable initLib
  | step (lib : LibState) (u t a : String) (y : Int) (io : Bool) :
      AddReachable lib → AddReachable (add_book lib u t a y io).1

/-- Store states reachable from a fresh empty library through the store's
operations (Add, Delete, ChangeStatus, Load, Save). -/
inductive Reachable : LibState → Prop where
  | init : Reachable initLib
  | add (lib : LibState) (u t a : String) (y : Int) (io : Bool) :
      Reachable lib → Reachable (add_book lib u t a y io).1
  | del (lib : LibState) (i : String) (io : Bool) :
      Reachable lib → Reachable (delete_book_step lib i io).1
  | chg (lib : LibState) (i st : String) (io : Bool) :
      Reachable lib → Reachable (change_status lib i st io).1
  | load (lib : LibState) :
      Reachable lib → Reachable (load_books lib).1
  | save (lib : LibState) (io : Bool) :
      Reachable lib → Reachable (save_books lib io).1

/-! ### Shared lemmas -/

theorem from_dict_to_dict (b : Book) : Book.from_dict (Book.to_dict b) = some b := by
  cases b
  rfl

theorem decode_encode (books : List Book) : decodeBooks (encodeBooks books) = some books := by
  induction books with
  | nil => rfl
  | cons b bs ih =>
    simp only [decodeBooks, encodeBooks, List.map_cons, decodeBookList,
      from_dict_to_dict] at *
    simp [ih]

theorem toNat_ofNat_of_lt (n : Nat) (h1 : n < 0xd800) : (Char.ofNat n).toNat = n := by
  have hv : n.isValidChar := Or.inl h1
  simp [Char.ofNat, hv, Char.ofNatAux, Char.toNat, UInt32.toNat]

theorem pyToLower_idem (c : Char) : pyToLower (pyToLower c) = pyToLower c := by
  unfold pyToLower
  split_ifs <;> first | rfl | (exfalso; rw [toNat_ofNat_of_lt] at * <;> omega)

theorem pyLower_idem (s : String) : pyLower (pyLower s) = pyLower s := by
  simp [pyLower, Function.comp_def, pyToLower_idem]

theorem find?_id_isSome (l : List Book) (i : String) (h : ∃ b ∈ l, b.id = i) :
    ∃ x, l.find? (fun b => b.id == i) = some x := by
  obtain ⟨b, hb, hid⟩ := h
  rcases hfind : l.find? (fun b => b.id == i) with _ | x
  · rw [List.find?_eq_none] at hfind
    exact absurd (by simp [hid]) (hfind b hb)
  · exact ⟨x, hfind⟩

theorem mem_setStatusFirst (book_id ns : String) (l : List Book) (b : Book)
    (h : b ∈ setStatusFirst book_id ns l) : b ∈ l ∨ b.status = ns := by
  induction l with
  | nil => simp [setStatusFirst] at h
  | cons x xs ih =>
    simp only [setStatusFirst] at h
    split at h
    · rcases List.mem_cons.mp h with h | h
      · right; rw [h]
      · left; exact List.mem_cons_of_mem _ h
    · rcases List.mem_cons.mp h with h | h
      · left; rw [h]; exact List.mem_cons_self _ _
      · rcases ih h with h' | h'
        · left; exact List.mem_cons_of_mem _ h'
        · right; exact h'

theorem storeInv_save (lib : LibState) (io : Bool) (h : StoreInv lib) :
    StoreInv (save_books lib io).1 := by
  rcases io with _ | _
  · simpa [save_books] using h
  · exact ⟨h.1, Or.inr ⟨lib.books, rfl, h.1⟩⟩

theorem storeInv_add (lib : LibState) (u t a : String) (y : Int) (io : Bool)
    (h : StoreInv lib) : StoreInv (add_book lib u t a y io).1 := by
  have hb : BooksOk (lib.books ++ [⟨u, t, a, y, statusAvailable⟩]) := by
    intro b hb
    rcases List.mem_append.mp hb with h' | h'
    · exact h.1 b h'
    · rw [List.mem_singleton.mp h']
      simp [validStatuses]
  exact storeInv_save ⟨lib.books ++ [⟨u, t, a, y, statusAvailable⟩], lib.file⟩ io ⟨hb, h.2⟩

theorem storeInv_delete (lib : LibState) (i : String) (io : Bool)
    (h : StoreInv lib) : StoreInv (delete_book_step lib i io).1 := by
  rcases hfind : lib.books.find? (fun b => b.id == i) with _ | x
  · simpa [delete_book_step, hfind] using h
  · have hb : BooksOk (lib.books.eraseP (fun b => b.id == i)) :=
      fun b hb => h.1 b (List.mem_of_mem_eraseP hb)
    have hs := storeInv_save ⟨lib.books.eraseP (fun b => b.id == i), lib.file⟩ io ⟨hb, h.2⟩
    simpa [delete_book_step, hfind] using hs

theorem storeInv_change (lib : LibState) (i st : String) (io : Bool)
    (h : StoreInv lib) : StoreInv (change_status lib i st io).1 := by
  by_cases hv : pyLower st ∉ validStatuses
  · simpa [change_status, hv] using h
  · rcases hfind : lib.books.find? (fun b => b.id == i) with _ | x
    · simpa [change_status, hv, hfind] using h
    · have hb : BooksOk (setStatusFirst i (pyLower st) lib.books) := by
        intro b hb
        rcases mem_setStatusFirst _ _ _ _ hb with h' | h'
        · exact h.1 b h'
        · rw [h']
          exact not_not.mp hv
      have hs := storeInv_save ⟨setStatusFirst i (pyLower st) lib.books, lib.file⟩ io ⟨hb, h.2⟩
      simpa [change_status, hv, hfind] using hs

theorem storeInv_load (lib : LibState) (h : StoreInv lib) :
    StoreInv (load_books lib).1 := by
  rcases hf : lib.file with _ | _ | v
  · simpa [load_books, hf] using h
  · simpa [load_books, hf] using h
  · rcases h.2 with h2 | ⟨bs, hbs, hok⟩
    · rw [hf] at h2
      exact absurd h2 (by simp)
    · rw [hf] at hbs
      have hv : v = encodeBooks bs := by injection hbs
      subst hv
      refine ⟨?_, ?_⟩
      · simpa [load_books, hf, decode_encode, BooksOk] using hok
      · simp only [load_books, hf, decode_encode]
        exact Or.inr ⟨bs, rfl, hok⟩

theorem storeInv_reachable (lib : LibState) (h : Reachable lib) : StoreInv lib := by
  induction h with
  | init => exact ⟨fun b hb => by simp [initLib] at hb, Or.inl rfl⟩
  | add lib u t a y io _ ih => exact storeInv_add lib u t a y io ih
  | del lib i io _ ih => exact storeInv_delete lib i io ih
  | chg lib i st io _ ih => exact storeInv_change lib i st io ih
  | load lib _ ih => exact storeInv_load lib ih
  | save lib io _ ih => exact storeInv_save lib io ih

/-! ### Claims -/

/-- C1: for every store state reachable by a sequence of Add calls,
performing Save() and then Load() yields a store containing the same
records (same id, title, author, year, status) in the same order as
before the round trip. -/
theorem C1_save_load_roundtrip (lib : LibState) (h : AddReachable lib) :
    ((load_books (save_books lib true).1).1).books = lib.books := by
  simp [save_books, load_books, decode_encode]

/-- C1 witness: the round trip at the concrete state reached by one Add. -/
theorem C1_save_load_roundtrip_witness :
    ((load_books (save_books (add_book initLib "u1" "Dune" "Herbert" 1965 true).1 true).1).1).books
      = (add_book initLib "u1" "Dune" "Herbert" 1965 true).1.books :=
  C1_save_load_roundtrip _ (AddReachable.step _ "u1" "Dune" "Herbert" 1965 true AddReachable.init)

/-- C2 counterexample: the claim quantifies over every status string that
is not one of the two enumerated values, but `change_status` lowercases
its argument before validating, so the string `"В НАЛИЧИИ"` — not itself
an enumerated value — is accepted rather than rejected: on a store holding
a book `b1` the call returns the normal-completion signal, not
`invalidStatus` (and it mutates the book and rewrites the file). -/
theorem C2_status_before_existence_counterexample :
    ("В НАЛИЧИИ" ∉ validStatuses) ∧
    (change_status ⟨[⟨"b1", "Dune", "Herbert", 1965, statusCheckedOut⟩], .absent⟩
        "b1" "В НАЛИЧИИ" true).2 ≠ StoreSignal.invalidStatus := by
  constructor
  · decide
  · decide

/-- C2 amended: for every store state, every id, and every status string
whose lowercased form is not one of the two enumerated status values,
ChangeStatus(id, newStatus) signals InvalidStatus regardless of whether a
record with that id exists (status legality is checked before existence),
and leaves the in-memory sequence and the backing file unchanged. -/
theorem C2_status_before_existence (lib : LibState) (book_id s : String) (io : Bool)
    (h : pyLower s ∉ validStatuses) :
    change_status lib book_id s io = (lib, .invalidStatus) := by
  simp [change_status, h]

/-- C2 witness: `"bogus"` lowercases to itself, is not a valid status, and
is rejected with `invalidStatus` on a store that does contain the id. -/
theorem C2_status_before_existence_witness :
    pyLower "bogus" ∉ validStatuses ∧
    change_status ⟨[⟨"b1", "Dune", "Herbert", 1965, statusAvailable⟩], .absent⟩ "b1" "bogus" true
      = (⟨[⟨"b1", "Dune", "Herbert", 1965, statusAvailable⟩], .absent⟩, .invalidStatus) :=
  ⟨by decide, C2_status_before_existence _ "b1" "bogus" true (by decide)⟩

/-- C6: FindByTitle/FindByAuthor return exactly the records whose title
(resp. author) contains the query as a case-insensitive substring, and
FindByYear exactly those whose year equals the query; each result is a
sublist of the book list, hence in store order (zero or more elements). -/
theorem C6_find_operations (lib : LibState) (q : String) (y : Int) (b : Book) :
    (b ∈ find_by_title lib q ↔ b ∈ lib.books ∧ (pyLower q).toList <:+: (pyLower b.title).toList)
    ∧ (b ∈ find_by_author lib q ↔ b ∈ lib.books ∧ (pyLower q).toList <:+: (pyLower b.author).toList)
    ∧ (b ∈ find_by_year lib y ↔ b ∈ lib.books ∧ b.year = y)
    ∧ (find_by_title lib q).Sublist lib.books
    ∧ (find_by_author lib q).Sublist lib.books
    ∧ (find_by_year lib y).Sublist lib.books := by
  refine ⟨?_, ?_, ?_, ?_, ?_, ?_⟩ <;>
    simp [find_by_title, find_by_author, find_by_year, strIn,
      List.mem_filter, List.filter_sublist]

/-- C10: ChangeStatus(id, s) behaves identically to
ChangeStatus(id, lowercase(s)), because the supplied status is lowercased
before the validity check and before assignment; consequently every book
in the resulting list is either untouched or carries a status that is its
own lowercase form. -/
theorem C10_change_status_lowercases (lib : LibState) (book_id s : String) (io : Bool) :
    change_status lib book_id s io = change_status lib book_id (pyLower s) io ∧
    ∀ b ∈ (change_status lib book_id s io).1.books,
      b ∈ lib.books ∨ b.status = pyLower b.status := by
  constructor
  · simp [change_status, pyLower_idem]
  · intro b hb
    unfold change_status at hb
    by_cases hv : pyLower s ∉ validStatuses
    · simp [hv] at hb
      exact Or.inl hb
    · simp [hv] at hb
      rcases hfind : lib.books.find? (fun x => x.id == book_id) with _ | x
      · rw [hfind] at hb
        exact Or.inl hb
      · rw [hfind] at hb
        simp [save_books] at hb
        rcases io with _ | _
        · simp at hb
          rcases mem_setStatusFirst _ _ _ _ hb with h' | h'
          · exact Or.inl h'
          · right
            rw [h', pyLower_idem]
        · simp at hb
          rcases mem_setStatusFirst _ _ _ _ hb with h' | h'
          · exact Or.inl h'
          · right
            rw [h', pyLower_idem]

/-- C3 counterexample: `add_book` is declared `-> None` and returns `None`
(the generated id is only printed), so at a concrete input the returned
value is not the new record the claim says Add returns. -/
theorem C3_add_returns_counterexample :
    (add_book initLib "u1" "Dune" "Herbert" 1965 true).2 = none ∧
    (add_book initLib "u1" "Dune" "Herbert" 1965 true).2
      ≠ some ⟨"u1", "Dune", "Herbert", 1965, statusAvailable⟩ := by
  constructor
  · rfl
  · simp [add_book]

/-- C3 amended: Add, given the freshly generated id (which uuid4 makes
non-empty, and which is assumed not to collide with any id in the store),
appends a new record carrying that id, the given fields and default status
`'в наличии'` (the spec's `available`) at the end of the sequence, calls
Save() (the file now holds the serialized new sequence), preserves id
uniqueness — but returns None rather than the new record; the generated id
is reported only in the printed message. -/
theorem C3_add_book (lib : LibState) (u t a : String) (y : Int)
    (hne : u ≠ "") (hfresh : ∀ b ∈ lib.books, b.id ≠ u) :
    (add_book lib u t a y true).1.books = lib.books ++ [⟨u, t, a, y, statusAvailable⟩]
    ∧ (⟨u, t, a, y, statusAvailable⟩ : Book).id ≠ ""
    ∧ (add_book lib u t a y true).1.file
        = .json (encodeBooks (lib.books ++ [⟨u, t, a, y, statusAvailable⟩]))
    ∧ (add_book lib u t a y true).2 = none
    ∧ ((lib.books.map Book.id).Nodup →
        ((add_book lib u t a y true).1.books.map Book.id).Nodup) := by
  refine ⟨by simp [add_book, save_books], hne, by simp [add_book, save_books], rfl, ?_⟩
  intro hnd
  have : (add_book lib u t a y true).1.books = lib.books ++ [⟨u, t, a, y, statusAvailable⟩] := by
    simp [add_book, save_books]
  rw [this, List.map_append, List.nodup_append]
  refine ⟨hnd, by simp, ?_⟩
  intro x hx
  simp only [List.mem_map] at hx
  obtain ⟨b, hb, rfl⟩ := hx
  simp only [List.map_cons, List.map_nil, List.mem_singleton]
  exact hfresh b hb

/-- C3 witness: a concrete Add on the empty store with a fresh id. -/
theorem C3_add_book_witness :
    (add_book initLib "u7" "Dune" "Herbert" 1965 true).1.books
        = initLib.books ++ [⟨"u7", "Dune", "Herbert", 1965, statusAvailable⟩]
    ∧ (⟨"u7", "Dune", "Herbert", 1965, statusAvailable⟩ : Book).id ≠ ""
    ∧ (add_book initLib "u7" "Dune" "Herbert" 1965 true).1.file
        = .json (encodeBooks (initLib.books ++ [⟨"u7", "Dune", "Herbert", 1965, statusAvailable⟩]))
    ∧ (add_book initLib "u7" "Dune" "Herbert" 1965 true).2 = none
    ∧ ((initLib.books.map Book.id).Nodup →
        ((add_book initLib "u7" "Dune" "Herbert" 1965 true).1.books.map Book.id).Nodup) :=
  C3_add_book initLib "u7" "Dune" "Herbert" 1965 (by decide) (by simp [initLib])

/-- C4: Delete(id) on an id no record has leaves the state (sequence and
file) unchanged and signals NotFound; on an id that is present it removes
exactly the (first) record bearing that id and calls Save(), so the file
holds the serialization of the new sequence. -/
theorem C4_delete_book (lib : LibState) (i : String) :
    ((∀ b ∈ lib.books, b.id ≠ i) → delete_book_step lib i true = (lib, .notFound))
    ∧ ((∃ b ∈ lib.books, b.id = i) →
        (delete_book_step lib i true).2 = .ok
        ∧ (∃ b l1 l2, lib.books = l1 ++ b :: l2 ∧ b.id = i ∧ (∀ x ∈ l1, x.id ≠ i) ∧
            (delete_book_step lib i true).1.books = l1 ++ l2)
        ∧ (delete_book_step lib i true).1.file
            = .json (encodeBooks (delete_book_step lib i true).1.books)) := by
  constructor
  · intro habs
    have hnone : lib.books.find? (fun b => b.id == i) = none := by
      rw [List.find?_eq_none]
      intro x hx
      simp [habs x hx]
    simp [delete_book_step, hnone]
  · rintro ⟨b, hb, hid⟩
    have hsome : ∃ x, lib.books.find? (fun b => b.id == i) = some x := by
      rcases hfind : lib.books.find? (fun b => b.id == i) with _ | x
      · rw [List.find?_eq_none] at hfind
        exact absurd (by simp [hid]) (hfind b hb)
      · exact ⟨x, hfind⟩
    obtain ⟨x, hx⟩ := hsome
    obtain ⟨c, l1, l2, hl1, hc, hsplit, herase⟩ :=
      List.exists_of_eraseP (p := fun b => b.id == i) hb (by simp [hid])
    refine ⟨by simp [delete_book_step, hx, save_books], ⟨c, l1, l2, hsplit, by simpa using hc,
      fun z hz => by simpa using hl1 z hz, ?_⟩, by simp [delete_book_step, hx, save_books]⟩
    simp [delete_book_step, hx, save_books, herase]

/-- C4 witness: on a concrete one-book store, deleting the absent id
`"zz"` is a signalled no-op, and deleting the present id `"b1"` returns
normally having removed it. -/
theorem C4_delete_book_witness :
    delete_book_step sampleLib "zz" true = (sampleLib, .notFound)
    ∧ (delete_book_step sampleLib "b1" true).2 = .ok := by
  constructor
  · exact (C4_delete_book sampleLib "zz").1 (by decide)
  · exact ((C4_delete_book sampleLib "b1").2 (by decide)).1

/-- C5 (code bug): Load() on an absent file leaves the sequence empty and
returns normally, as claimed; but on a file that exists and is not valid
JSON, `load_books` catches the `JSONDecodeError`, logs it, and returns
normally with the (empty) list unchanged — no `CorruptDataError` reaches
the caller, the silent fallback the claim rules out. -/
theorem C5_load_corrupt_swallowed :
    load_books initLib = (initLib, .ok)
    ∧ load_books ⟨[], .corrupt⟩ = (⟨[], .corrupt⟩, .ok)
    ∧ (load_books ⟨[], .corrupt⟩).2 ≠ StoreSignal.corruptData := by
  refine ⟨rfl, rfl, by decide⟩

/-- C8 counterexample: `save_books` with a failing write catches the
`IOError`, logs it, and returns the normal-completion signal — not
`persistenceError` — so the claimed surfacing does not happen. -/
theorem C8_save_failure_counterexample :
    (save_books sampleLib false).2 = StoreSignal.ok
    ∧ (save_books sampleLib false).2 ≠ StoreSignal.persistenceError :=
  ⟨rfl, by decide⟩

/-- C8 amended: Save() on an I/O failure logs the error and returns
normally: the caller receives the same signal as on success, the file
keeps its prior state, and no retry happens — so a mutating caller such
as Add ends with the in-memory list updated, the file not updated, and
no indication of the failure. -/
theorem C8_save_failure_swallowed (lib : LibState) (u t a : String) (y : Int) :
    (save_books lib false).2 = StoreSignal.ok
    ∧ (save_books lib false).1 = lib
    ∧ (add_book lib u t a y false).1.books = lib.books ++ [⟨u, t, a, y, statusAvailable⟩]
    ∧ (add_book lib u t a y false).1.file = lib.file := by
  refine ⟨rfl, rfl, by simp [add_book, save_books], by simp [add_book, save_books]⟩

/-- C9: each successful mutating operation (Add, Delete on a present id,
ChangeStatus with a valid status and present id) leaves the backing file
holding the full serialization of the resulting in-memory sequence, i.e.
its write ran before the operation returned; the find operations read
only the book list — their result is independent of the backing file and
they return a result list without touching the state. -/
theorem C9_persistence_and_frame (lib : LibState) (u t a q i st : String) (y : Int)
    (books : List Book) (f1 f2 : FileState) :
    ((add_book lib u t a y true).1.file
        = .json (encodeBooks (add_book lib u t a y true).1.books))
    ∧ ((∃ b ∈ lib.books, b.id = i) →
        (delete_book_step lib i true).1.file
          = .json (encodeBooks (delete_book_step lib i true).1.books))
    ∧ ((pyLower st ∈ validStatuses ∧ ∃ b ∈ lib.books, b.id = i) →
        (change_status lib i st true).1.file
          = .json (encodeBooks (change_status lib i st true).1.books))
    ∧ find_by_title ⟨books, f1⟩ q = find_by_title ⟨books, f2⟩ q
    ∧ find_by_author ⟨books, f1⟩ q = find_by_author ⟨books, f2⟩ q
    ∧ find_by_year ⟨books, f1⟩ y = find_by_year ⟨books, f2⟩ y := by
  refine ⟨by simp [add_book, save_books], ?_, ?_, rfl, rfl, rfl⟩
  · intro hex
    obtain ⟨x, hx⟩ := find?_id_isSome lib.books i hex
    simp [delete_book_step, hx, save_books]
  · rintro ⟨hv, hex⟩
    obtain ⟨x, hx⟩ := find?_id_isSome lib.books i hex
    simp [change_status, hx, hv, save_books]

/-- C9 witness: on the concrete one-book store, Add, Delete of the present
id and ChangeStatus to `'выдана'` each leave the file holding the new
sequence's serialization, and a title search does not depend on the file
state. -/
theorem C9_persistence_and_frame_witness :
    ((add_book sampleLib "u9" "T" "A" 2000 true).1.file
        = .json (encodeBooks (add_book sampleLib "u9" "T" "A" 2000 true).1.books))
    ∧ ((delete_book_step sampleLib "b1" true).1.file
        = .json (encodeBooks (delete_book_step sampleLib "b1" true).1.books))
    ∧ ((change_status sampleLib "b1" "выдана" true).1.file
        = .json (encodeBooks (change_status sampleLib "b1" "выдана" true).1.books))
    ∧ find_by_title ⟨sampleLib.books, .absent⟩ "dune"
        = find_by_title ⟨sampleLib.books, .corrupt⟩ "dune" := by
  refine ⟨(C9_persistence_and_frame sampleLib "u9" "T" "A" "dune" "b1" "выдана" 2000
      sampleLib.books .absent .corrupt).1,
    (C9_persistence_and_frame sampleLib "u9" "T" "A" "dune" "b1" "выдана" 2000
      sampleLib.books .absent .corrupt).2.1 (by decide),
    (C9_persistence_and_frame sampleLib "u9" "T" "A" "dune" "b1" "выдана" 2000
      sampleLib.books .absent .corrupt).2.2.1 (by decide),
    (C9_persistence_and_frame sampleLib "u9" "T" "A" "dune" "b1" "выдана" 2000
      sampleLib.books .absent .corrupt).2.2.2.1⟩

/-- C7: in every store state reachable through the store's operations,
every in-memory record's status is one of the two enumerated values, and
whatever JSON the backing file holds is the serialization of a book list
whose statuses are likewise among the two values — no other status is
ever persisted. -/
theorem C7_status_invariant (lib : LibState) (h : Reachable lib) :
    (∀ b ∈ lib.books, b.status = statusAvailable ∨ b.status = statusCheckedOut)
    ∧ (∀ v, lib.file = .json v →
        ∃ bs, v = encodeBooks bs ∧
          ∀ b ∈ bs, b.status = statusAvailable ∨ b.status = statusCheckedOut) := by
  have hinv := storeInv_reachable lib h
  constructor
  · intro b hb
    simpa [validStatuses] using hinv.1 b hb
  · intro v hv
    rcases hinv.2 with h2 | ⟨bs, hbs, hok⟩
    · rw [hv] at h2
      exact absurd h2 (by simp)
    · rw [hv] at hbs
      refine ⟨bs, by injection hbs, ?_⟩
      intro b hb
      simpa [validStatuses] using hok b hb

/-- C7 witness: the concrete state reached by Add then ChangeStatus to
`'выдана'` then Save satisfies the invariant. -/
theorem C7_status_invariant_witness :
    (∀ b ∈ (change_status (add_book initLib "u1" "Dune" "Herbert" 1965 true).1
        "u1" "выдана" true).1.books,
      b.status = statusAvailable ∨ b.status = statusCheckedOut)
    ∧ (∀ v, (change_status (add_book initLib "u1" "Dune" "Herbert" 1965 true).1
        "u1" "выдана" true).1.file = .json v →
        ∃ bs, v = encodeBooks bs ∧
          ∀ b ∈ bs, b.status = statusAvailable ∨ b.status = statusCheckedOut) :=
  C7_status_invariant _
    (Reachable.chg _ "u1" "выдана" true
      (Reachable.add _ "u1" "Dune" "Herbert" 1965 true Reachable.init))

end LibraryStore
